import Mathlib

/-!
Verification of the tiny U-Net forward-pass engine of `world-diffuser`
(`src/models/TinyModelGenerator.ts`, EDM-style variant, together with the
data model of `src/types/tiny.ts`).

Modelling conventions.
JavaScript double arithmetic is modelled over `ℝ` (`Math.exp` as `Real.exp`,
`Math.log` as `Real.log`).  A rank-3 activation buffer `number[][][]` of
declared extents `channels × height × width` is modelled as a total function
`ℕ → ℕ → ℕ → ℝ` together with the three extent fields; an index outside the
declared extents reads `0`, which stands for "no entry".  Every operator of
the source first calls `createActivationTensor` (an all-zero buffer of the
output extents) and then writes a formula at each in-bounds index, which is
exactly the `mkTensor` combinator below.  Weight matrices are modelled as
functions (the spec's "dense weight mapping"), bias vectors as `List ℝ` (the
spec's "bias sequence"), so that `bias.length` of the source is meaningful.
`Math.random` draws in the initializer are abstracted as explicit draw
functions passed to the `create*` constructors; everything downstream of
construction is deterministic in the source.
-/

namespace TinyModel

/-- A single 3×3 convolution kernel (`Kernel3x3` of `types/tiny.ts`):
`weights[kh][kw]` for `kh, kw ∈ {0,1,2}`. -/
structure Kernel3x3 where
  weights : ℕ → ℕ → ℝ

/-- Per-block projection layer (`BlockProjection` of `types/tiny.ts`):
`weights[outputDim][embeddingDim]`, `bias[outputDim]`. -/
structure BlockProjection where
  weights : ℕ → ℕ → ℝ
  bias : List ℝ
  embeddingDim : ℕ
  outputDim : ℕ

/-- Conv layer with explicit weight storage (`TinyConvLayer` of
`types/tiny.ts`): `kernels[outChannels][inChannels]`, `bias[outChannels]`,
optional per-block time conditioning. -/
structure TinyConvLayer where
  name : String
  inChannels : ℕ
  outChannels : ℕ
  kernels : ℕ → ℕ → Kernel3x3
  bias : List ℝ
  projection : Option BlockProjection

/-- Linear layer for the MLP (`LinearLayer` of `types/tiny.ts`):
`weights[outputDim][inputDim]`, `bias[outputDim]`. -/
structure LinearLayer where
  weights : ℕ → ℕ → ℝ
  bias : List ℝ
  inputDim : ℕ
  outputDim : ℕ

/-- Time embedding MLP (`TimeEmbeddingMLP` of `types/tiny.ts`). -/
structure TimeEmbeddingMLP where
  hiddenLayer : LinearLayer
  outputLayer : LinearLayer

/-- Complete tiny U-Net model (`TinyUNet` of `types/tiny.ts`). -/
structure TinyUNet where
  timeEmbedMLP : TimeEmbeddingMLP
  inputConv : TinyConvLayer
  encoderConv : TinyConvLayer
  bottleneckConv : TinyConvLayer
  decoderConv : TinyConvLayer
  outputConv : TinyConvLayer

/-- Activation tensor (`ActivationTensor` of `types/tiny.ts`): a rank-3
buffer of declared extents `channels × height × width`.  `data c h w` is the
entry at (channel, row, col); indices outside the declared extents read `0`. -/
@[ext]
structure ActivationTensor where
  data : ℕ → ℕ → ℕ → ℝ
  channels : ℕ
  height : ℕ
  width : ℕ

/-- The source invariant that `data` is sized exactly
`channels × height × width`: in the function model, every out-of-bounds
index holds the default `0`.  Every tensor the source ever builds satisfies
this (`createActivationTensor` zero-fills, operators write in bounds). -/
def WellFormed (t : ActivationTensor) : Prop :=
  ∀ c h w, t.channels ≤ c ∨ t.height ≤ h ∨ t.width ≤ w → t.data c h w = 0

/-- `createActivationTensor(channels, height, width)` of
`TinyModelGenerator.ts`: an all-zero buffer of the given extents. -/
def createActivationTensor (channels height width : ℕ) : ActivationTensor :=
  ⟨fun _ _ _ => 0, channels, height, width⟩

/-- The source idiom "`createActivationTensor` then write `f c h w` at every
in-bounds index by nested loops", shared by every tensor operator. -/
def mkTensor (channels height width : ℕ) (f : ℕ → ℕ → ℕ → ℝ) : ActivationTensor :=
  ⟨fun c h w => if c < channels ∧ h < height ∧ w < width then f c h w else 0,
   channels, height, width⟩

/-- `computeCnoise(sigma)` of `TinyModelGenerator.ts`:
`0.25 * Math.log(Math.max(sigma, 1e-6))`. -/
noncomputable def computeCnoise (sigma : ℝ) : ℝ :=
  0.25 * Real.log (max sigma 1e-6)

/-- `applyLinear(input, layer)` of `TinyModelGenerator.ts`:
`output[o] = layer.bias[o] + Σ_{i < inputDim} layer.weights[o][i] * input[i]`
for `o < outputDim`. -/
noncomputable def applyLinear (input : List ℝ) (layer : LinearLayer) : List ℝ :=
  (List.range layer.outputDim).map fun o =>
    layer.bias.getD o 0 +
      ∑ i ∈ Finset.range layer.inputDim, layer.weights o i * input.getD i 0

/-- `applySiLUArray(input)` of `TinyModelGenerator.ts`: elementwise
`x * (1 / (1 + Math.exp(-x)))`. -/
noncomputable def applySiLUArray (input : List ℝ) : List ℝ :=
  input.map fun x => x * (1 / (1 + Real.exp (-x)))

/-- `runTimeEmbeddingMLP(cnoise, mlp)` of `TinyModelGenerator.ts`.  Note the
source returns the PRE-activation `hidden` vector (the SiLU-activated vector
is used only to feed the output layer). -/
noncomputable def runTimeEmbeddingMLP (cnoise : ℝ) (mlp : TimeEmbeddingMLP) :
    List ℝ × List ℝ :=
  let hidden := applyLinear [cnoise] mlp.hiddenLayer
  let hiddenActivated := applySiLUArray hidden
  let embedding := applyLinear hiddenActivated mlp.outputLayer
  (hidden, embedding)

/-- `applyBlockProjection(embedding, projection)` of
`TinyModelGenerator.ts`: same linear map shape as `applyLinear`. -/
noncomputable def applyBlockProjection (embedding : List ℝ)
    (projection : BlockProjection) : List ℝ :=
  (List.range projection.outputDim).map fun o =>
    projection.bias.getD o 0 +
      ∑ i ∈ Finset.range projection.embeddingDim,
        projection.weights o i * embedding.getD i 0

/-- `applyConv2d(input, layer)` of `TinyModelGenerator.ts`: 3×3 convolution,
stride 1, zero padding 1, same spatial size, `layer.outChannels` output
channels.  The source guard `ih >= 0 && ih < height && iw >= 0 && iw < width`
on the signed index `ih = h + kh - 1` is rendered over `ℕ` as
`1 ≤ h + kh ∧ h + kh - 1 < height` (and likewise for `iw`). -/
noncomputable def applyConv2d (input : ActivationTensor) (layer : TinyConvLayer) :
    ActivationTensor :=
  mkTensor layer.outChannels input.height input.width fun oc h w =>
    layer.bias.getD oc 0 +
      ∑ ic ∈ Finset.range layer.inChannels,
        ∑ kh ∈ Finset.range 3, ∑ kw ∈ Finset.range 3,
          if 1 ≤ h + kh ∧ h + kh - 1 < input.height ∧
             1 ≤ w + kw ∧ w + kw - 1 < input.width then
            input.data ic (h + kh - 1) (w + kw - 1) * (layer.kernels oc ic).weights kh kw
          else 0

/-- `applySiLU(input)` of `TinyModelGenerator.ts`: elementwise
`x * (1 / (1 + Math.exp(-x)))` on a tensor, shape preserved. -/
noncomputable def applySiLU (input : ActivationTensor) : ActivationTensor :=
  mkTensor input.channels input.height input.width fun c h w =>
    input.data c h w * (1 / (1 + Real.exp (-input.data c h w)))

/-- `downsample2x(input)` of `TinyModelGenerator.ts`: average pooling into
extents `⌊height/2⌋ × ⌊width/2⌋` (floor division, as in the source's
`Math.floor(input.height / 2)`). -/
noncomputable def downsample2x (input : ActivationTensor) : ActivationTensor :=
  mkTensor input.channels (input.height / 2) (input.width / 2) fun c h w =>
    (input.data c (h * 2) (w * 2) + input.data c (h * 2 + 1) (w * 2) +
      input.data c (h * 2) (w * 2 + 1) + input.data c (h * 2 + 1) (w * 2 + 1)) / 4

/-- `upsample2x(input)` of `TinyModelGenerator.ts`: nearest-neighbor
duplication into extents `2·height × 2·width`.  The source writes the value
of source pixel `(h, w)` to the four output pixels `(2h + δh, 2w + δw)`;
equivalently the output entry at `(h', w')` is the input entry at
`(h'/2, w'/2)`. -/
noncomputable def upsample2x (input : ActivationTensor) : ActivationTensor :=
  mkTensor input.channels (input.height * 2) (input.width * 2) fun c h w =>
    input.data c (h / 2) (w / 2)

/-- `concat(a, b)` of `TinyModelGenerator.ts`: channel concatenation with
`a`'s channels first, under the output extents `(a.channels + b.channels) ×
a.height × a.width` taken from `a`. -/
noncomputable def concat (a b : ActivationTensor) : ActivationTensor :=
  mkTensor (a.channels + b.channels) a.height a.width fun c h w =>
    if c < a.channels then a.data c h w else b.data (c - a.channels) h w

/-- `addBlockConditioning(input, sharedEmbedding, projection)` of
`TinyModelGenerator.ts`: project the shared embedding through the block's
projection and add `conditioning[c]` (or `0` when `c` is past the end of the
conditioning vector, the source's defensive `c < conditioning.length`
check) at every spatial position of channel `c`. -/
noncomputable def addBlockConditioning (input : ActivationTensor)
    (sharedEmbedding : List ℝ) (projection : BlockProjection) : ActivationTensor :=
  let conditioning := applyBlockProjection sharedEmbedding projection
  mkTensor input.channels input.height input.width fun c h w =>
    input.data c h w + if c < conditioning.length then conditioning.getD c 0 else 0

/-- `ForwardPassState` of `types/tiny.ts`: the full forward trace. -/
structure ForwardPassState where
  noisyInput : ActivationTensor
  timestep : ℝ
  cnoise : ℝ
  mlpHidden : List ℝ
  sharedEmbedding : List ℝ
  afterInputConv : ActivationTensor
  afterEncoder : ActivationTensor
  afterDownsample : ActivationTensor
  afterBottleneck : ActivationTensor
  afterUpsample : ActivationTensor
  afterSkipConcat : ActivationTensor
  afterDecoder : ActivationTensor
  output : ActivationTensor

/-- The conditional conditioning step of `forwardPass`:
`if (layer.projection) x = addBlockConditioning(x, sharedEmbedding, layer.projection)`. -/
noncomputable def conditionIfPresent (x : ActivationTensor) (sharedEmbedding : List ℝ)
    (layer : TinyConvLayer) : ActivationTensor :=
  match layer.projection with
  | some p => addBlockConditioning x sharedEmbedding p
  | none => x

/-- `forwardPass(model, noisyInput, timestep)` of `TinyModelGenerator.ts`:
the fixed encoder → bottleneck → decoder pipeline with one skip connection
and per-block EDM-style conditioning, recording every intermediate tensor. -/
noncomputable def forwardPass (model : TinyUNet) (noisyInput : ActivationTensor)
    (timestep : ℝ) : ForwardPassState :=
  let cnoise := computeCnoise timestep
  let mlpOut := runTimeEmbeddingMLP cnoise model.timeEmbedMLP
  let mlpHidden := mlpOut.1
  let sharedEmbedding := mlpOut.2
  let afterInputConv :=
    conditionIfPresent (applySiLU (applyConv2d noisyInput model.inputConv))
      sharedEmbedding model.inputConv
  let afterEncoder :=
    conditionIfPresent (applySiLU (applyConv2d afterInputConv model.encoderConv))
      sharedEmbedding model.encoderConv
  let afterDownsample := downsample2x afterEncoder
  let afterBottleneck :=
    conditionIfPresent (applySiLU (applyConv2d afterDownsample model.bottleneckConv))
      sharedEmbedding model.bottleneckConv
  let afterUpsample := upsample2x afterBottleneck
  let afterSkipConcat := concat afterUpsample afterEncoder
  let afterDecoder :=
    conditionIfPresent (applySiLU (applyConv2d afterSkipConcat model.decoderConv))
      sharedEmbedding model.decoderConv
  let output := applyConv2d afterDecoder model.outputConv
  { noisyInput := noisyInput
    timestep := timestep
    cnoise := cnoise
    mlpHidden := mlpHidden
    sharedEmbedding := sharedEmbedding
    afterInputConv := afterInputConv
    afterEncoder := afterEncoder
    afterDownsample := afterDownsample
    afterBottleneck := afterBottleneck
    afterUpsample := afterUpsample
    afterSkipConcat := afterSkipConcat
    afterDecoder := afterDecoder
    output := output }

/-- `createTinyConvLayer(name, inChannels, outChannels)` of
`TinyModelGenerator.ts`, with the `xavierInit` draws (which consume
`Math.random`) abstracted as the draw function `draw oc ic kh kw`.  Bias
initializes to zero (`new Array(outChannels).fill(0)`); no projection yet
(the source attaches it afterwards in `createTinyUNet`). -/
def createTinyConvLayer (name : String) (inChannels outChannels : ℕ)
    (draw : ℕ → ℕ → ℕ → ℕ → ℝ) : TinyConvLayer :=
  { name := name
    inChannels := inChannels
    outChannels := outChannels
    kernels := fun oc ic => ⟨fun kh kw => draw oc ic kh kw⟩
    bias := List.replicate outChannels 0
    projection := none }

/-- `createLinearLayer(inputDim, outputDim)` of `TinyModelGenerator.ts`,
draws abstracted as `draw o i`; zero bias. -/
def createLinearLayer (inputDim outputDim : ℕ) (draw : ℕ → ℕ → ℝ) : LinearLayer :=
  { weights := fun o i => draw o i
    bias := List.replicate outputDim 0
    inputDim := inputDim
    outputDim := outputDim }

/-- `createTimeEmbeddingMLP(hiddenDim, embeddingDim)` of
`TinyModelGenerator.ts`: a 1 → hiddenDim layer and a
hiddenDim → embeddingDim layer. -/
def createTimeEmbeddingMLP (hiddenDim embeddingDim : ℕ)
    (drawHidden drawOutput : ℕ → ℕ → ℝ) : TimeEmbeddingMLP :=
  { hiddenLayer := createLinearLayer 1 hiddenDim drawHidden
    outputLayer := createLinearLayer hiddenDim embeddingDim drawOutput }

/-- `createBlockProjection(embeddingDim, outputDim)` of
`TinyModelGenerator.ts`: an embeddingDim → outputDim map with zero bias. -/
def createBlockProjection (embeddingDim outputDim : ℕ)
    (draw : ℕ → ℕ → ℝ) : BlockProjection :=
  { weights := fun o i => draw o i
    bias := List.replicate outputDim 0
    embeddingDim := embeddingDim
    outputDim := outputDim }

/-- The random draw functions consumed by `createTinyUNet`, one per
constructor call site (each stands for a stream of `Math.random`-backed
`xavierInit` samples). -/
structure UNetDraws where
  mlpHidden : ℕ → ℕ → ℝ
  mlpOutput : ℕ → ℕ → ℝ
  inputConvW : ℕ → ℕ → ℕ → ℕ → ℝ
  encoderConvW : ℕ → ℕ → ℕ → ℕ → ℝ
  bottleneckConvW : ℕ → ℕ → ℕ → ℕ → ℝ
  decoderConvW : ℕ → ℕ → ℕ → ℕ → ℝ
  outputConvW : ℕ → ℕ → ℕ → ℕ → ℝ
  inputProj : ℕ → ℕ → ℝ
  encoderProj : ℕ → ℕ → ℝ
  bottleneckProj : ℕ → ℕ → ℝ
  decoderProj : ℕ → ℕ → ℝ

/-- `createTinyUNet()` of `TinyModelGenerator.ts` (EDM-style variant):
hiddenDim 4, embeddingDim 8, channels 1→2→2→2→1, per-block projections of
size 8→2 on the first four conv layers, none on `outputConv`. -/
def createTinyUNet (d : UNetDraws) : TinyUNet :=
  { timeEmbedMLP := createTimeEmbeddingMLP 4 8 d.mlpHidden d.mlpOutput
    inputConv :=
      { createTinyConvLayer "inputConv" 1 2 d.inputConvW with
        projection := some (createBlockProjection 8 2 d.inputProj) }
    encoderConv :=
      { createTinyConvLayer "encoderConv" 2 2 d.encoderConvW with
        projection := some (createBlockProjection 8 2 d.encoderProj) }
    bottleneckConv :=
      { createTinyConvLayer "bottleneckConv" 2 2 d.bottleneckConvW with
        projection := some (createBlockProjection 8 2 d.bottleneckProj) }
    decoderConv :=
      { createTinyConvLayer "decoderConv" 4 2 d.decoderConvW with
        projection := some (createBlockProjection 8 2 d.decoderProj) }
    outputConv := createTinyConvLayer "outputConv" 2 1 d.outputConvW }

/-- The kernel/bias part of a conv layer's `countParameters` summand:
`outChannels × inChannels × 9` kernel weights plus `outChannels` biases. -/
def convKernelBiasParamCount (layer : TinyConvLayer) : ℕ :=
  layer.outChannels * layer.inChannels * 9 + layer.outChannels

/-- The projection part of a conv layer's `countParameters` summand:
`embeddingDim × outputDim` weights plus `bias.length` biases when a
projection is present, `0` otherwise. -/
def convProjectionParamCount (layer : TinyConvLayer) : ℕ :=
  match layer.projection with
  | some p => p.embeddingDim * p.outputDim + p.bias.length
  | none => 0

/-- The per-conv-layer summand of `countParameters`. -/
def convLayerParamCount (layer : TinyConvLayer) : ℕ :=
  convKernelBiasParamCount layer + convProjectionParamCount layer

/-- The linear-layer summand of `countParameters`:
`inputDim × outputDim + bias.length`. -/
def linearParamCount (layer : LinearLayer) : ℕ :=
  layer.inputDim * layer.outputDim + layer.bias.length

/-- `countParameters(model)` of `TinyModelGenerator.ts` (EDM-style variant):
MLP weight/bias counts plus the five conv layers' kernel, bias and
projection counts. -/
def countParameters (model : TinyUNet) : ℕ :=
  linearParamCount model.timeEmbedMLP.hiddenLayer +
    linearParamCount model.timeEmbedMLP.outputLayer +
    convLayerParamCount model.inputConv +
    convLayerParamCount model.encoderConv +
    convLayerParamCount model.bottleneckConv +
    convLayerParamCount model.decoderConv +
    convLayerParamCount model.outputConv

/-- `createSampleInput()` of `TinyModelGenerator.ts`: the 1×2×2 gradient
`[[0.1, 0.4], [0.6, 0.9]]`. -/
noncomputable def createSampleInput : ActivationTensor :=
  mkTensor 1 2 2 fun _ h w =>
    if h = 0 then (if w = 0 then 0.1 else 0.4) else (if w = 0 then 0.6 else 0.9)

/-- All-zero draw functions: the model every weight of which initializes
to `0` (used to instantiate universally quantified draw arguments). -/
def zeroDraws : UNetDraws :=
  { mlpHidden := fun _ _ => 0
    mlpOutput := fun _ _ => 0
    inputConvW := fun _ _ _ _ => 0
    encoderConvW := fun _ _ _ _ => 0
    bottleneckConvW := fun _ _ _ _ => 0
    decoderConvW := fun _ _ _ _ => 0
    outputConvW := fun _ _ _ _ => 0
    inputProj := fun _ _ => 0
    encoderProj := fun _ _ => 0
    bottleneckProj := fun _ _ => 0
    decoderProj := fun _ _ => 0 }

/-- The spec's zero-padded read (§4.2): the entry of `t` at channel `c` and
signed spatial index `(ih, iw)`, contributing `0` whenever the index falls
outside `[0, height) × [0, width)`. -/
noncomputable def readPad (t : ActivationTensor) (c : ℕ) (ih iw : ℤ) : ℝ :=
  if 0 ≤ ih ∧ ih < (t.height : ℤ) ∧ 0 ≤ iw ∧ iw < (t.width : ℤ) then
    t.data c ih.toNat iw.toNat
  else 0

/-- Every entry of the tensor is `0`. -/
def TensorZero (t : ActivationTensor) : Prop :=
  ∀ c h w, t.data c h w = 0

/-- Every weight and bias of a linear layer is `0`. -/
def LinearZero (l : LinearLayer) : Prop :=
  (∀ o i, l.weights o i = 0) ∧ ∀ o, l.bias.getD o 0 = 0

/-- Every weight and bias of a block projection is `0`. -/
def ProjectionZero (p : BlockProjection) : Prop :=
  (∀ o i, p.weights o i = 0) ∧ ∀ o, p.bias.getD o 0 = 0

/-- Every kernel weight, bias and projection weight of a conv layer is `0`. -/
def ConvZero (layer : TinyConvLayer) : Prop :=
  (∀ oc ic kh kw, (layer.kernels oc ic).weights kh kw = 0) ∧
  (∀ o, layer.bias.getD o 0 = 0) ∧
  ∀ p, layer.projection = some p → ProjectionZero p

/-- Every kernel weight, bias, MLP weight and projection weight of the
model is `0`. -/
def ModelWeightsZero (m : TinyUNet) : Prop :=
  LinearZero m.timeEmbedMLP.hiddenLayer ∧ LinearZero m.timeEmbedMLP.outputLayer ∧
  ConvZero m.inputConv ∧ ConvZero m.encoderConv ∧ ConvZero m.bottleneckConv ∧
  ConvZero m.decoderConv ∧ ConvZero m.outputConv

/-- A concrete 1→1 conv layer whose nine kernel weights are all `1`
(witness object). -/
noncomputable def convTestLayer : TinyConvLayer :=
  { name := "test"
    inChannels := 1
    outChannels := 1
    kernels := fun _ _ => ⟨fun _ _ => 1⟩
    bias := [0]
    projection := none }

/-- A concrete 1×1×1 tensor holding the value `2` (witness object). -/
noncomputable def convTestInput : ActivationTensor :=
  mkTensor 1 1 1 fun _ _ _ => 2

/-- A concrete MLP whose hidden layer has zero weights and bias `1`
(counterexample object: its pre-activation hidden vector is `[1]`, which
SiLU does not fix). -/
noncomputable def mlpCounter : TimeEmbeddingMLP :=
  { hiddenLayer := { weights := fun _ _ => 0, bias := [1], inputDim := 1, outputDim := 1 }
    outputLayer := { weights := fun _ _ => 0, bias := [0], inputDim := 1, outputDim := 1 } }

/-- A concrete all-ones tensor with odd spatial extents 3×3
(counterexample object for the pooling precondition). -/
noncomputable def oddTensor : ActivationTensor :=
  mkTensor 1 3 3 fun _ _ _ => 1

/-- A concrete 2×1×1 tensor with per-channel values 1 and 2
(witness object for concatenation ordering). -/
noncomputable def concatLeft : ActivationTensor :=
  mkTensor 2 1 1 fun c _ _ => c + 1

/-- A concrete 2×1×1 tensor with per-channel values 3 and 4
(witness object for concatenation ordering). -/
noncomputable def concatRight : ActivationTensor :=
  mkTensor 2 1 1 fun c _ _ => c + 3

/-- A concrete 2-channel 1×1 tensor (channel values 0 and 7) fed to a
1-input-channel conv layer in the shape-validation counterexample. -/
noncomputable def extraChannelInput : ActivationTensor :=
  mkTensor 2 1 1 fun c _ _ => 7 * c

/-- The same tensor as `extraChannelInput` restricted to one declared
channel. -/
noncomputable def oneChannelInput : ActivationTensor :=
  mkTensor 1 1 1 fun c _ _ => 7 * c

theorem wellFormed_mkTensor (channels height width : ℕ) (f : ℕ → ℕ → ℕ → ℝ) :
    WellFormed (mkTensor channels height width f) := by
  intro c h w hout
  simp only [mkTensor] at hout ⊢
  rw [if_neg]
  rintro ⟨h1, h2, h3⟩
  omega

@[simp] theorem mkTensor_data (c h w : ℕ) (f : ℕ → ℕ → ℕ → ℝ) :
    (mkTensor c h w f).data =
      fun c' h' w' => if c' < c ∧ h' < h ∧ w' < w then f c' h' w' else 0 := rfl

@[simp] theorem mkTensor_channels (c h w : ℕ) (f : ℕ → ℕ → ℕ → ℝ) :
    (mkTensor c h w f).channels = c := rfl

@[simp] theorem mkTensor_height (c h w : ℕ) (f : ℕ → ℕ → ℕ → ℝ) :
    (mkTensor c h w f).height = h := rfl

@[simp] theorem mkTensor_width (c h w : ℕ) (f : ℕ → ℕ → ℕ → ℝ) :
    (mkTensor c h w f).width = w := rfl

@[simp] theorem applyConv2d_channels (input : ActivationTensor) (layer : TinyConvLayer) :
    (applyConv2d input layer).channels = layer.outChannels := rfl

@[simp] theorem applyConv2d_height (input : ActivationTensor) (layer : TinyConvLayer) :
    (applyConv2d input layer).height = input.height := rfl

@[simp] theorem applyConv2d_width (input : ActivationTensor) (layer : TinyConvLayer) :
    (applyConv2d input layer).width = input.width := rfl

@[simp] theorem applySiLU_channels (input : ActivationTensor) :
    (applySiLU input).channels = input.channels := rfl

@[simp] theorem applySiLU_height (input : ActivationTensor) :
    (applySiLU input).height = input.height := rfl

@[simp] theorem applySiLU_width (input : ActivationTensor) :
    (applySiLU input).width = input.width := rfl

@[simp] theorem addBlockConditioning_channels (input : ActivationTensor)
    (emb : List ℝ) (p : BlockProjection) :
    (addBlockConditioning input emb p).channels = input.channels := rfl

@[simp] theorem addBlockConditioning_height (input : ActivationTensor)
    (emb : List ℝ) (p : BlockProjection) :
    (addBlockConditioning input emb p).height = input.height := rfl

@[simp] theorem addBlockConditioning_width (input : ActivationTensor)
    (emb : List ℝ) (p : BlockProjection) :
    (addBlockConditioning input emb p).width = input.width := rfl

@[simp] theorem conditionIfPresent_channels (x : ActivationTensor) (emb : List ℝ)
    (layer : TinyConvLayer) :
    (conditionIfPresent x emb layer).channels = x.channels := by
  cases hp : layer.projection <;> simp [conditionIfPresent, hp]

@[simp] theorem conditionIfPresent_height (x : ActivationTensor) (emb : List ℝ)
    (layer : TinyConvLayer) :
    (conditionIfPresent x emb layer).height = x.height := by
  cases hp : layer.projection <;> simp [conditionIfPresent, hp]

@[simp] theorem conditionIfPresent_width (x : ActivationTensor) (emb : List ℝ)
    (layer : TinyConvLayer) :
    (conditionIfPresent x emb layer).width = x.width := by
  cases hp : layer.projection <;> simp [conditionIfPresent, hp]

@[simp] theorem downsample2x_channels (input : ActivationTensor) :
    (downsample2x input).channels = input.channels := rfl

@[simp] theorem downsample2x_height (input : ActivationTensor) :
    (downsample2x input).height = input.height / 2 := rfl

@[simp] theorem downsample2x_width (input : ActivationTensor) :
    (downsample2x input).width = input.width / 2 := rfl

@[simp] theorem upsample2x_channels (input : ActivationTensor) :
    (upsample2x input).channels = input.channels := rfl

@[simp] theorem upsample2x_height (input : ActivationTensor) :
    (upsample2x input).height = input.height * 2 := rfl

@[simp] theorem upsample2x_width (input : ActivationTensor) :
    (upsample2x input).width = input.width * 2 := rfl

@[simp] theorem concat_channels (a b : ActivationTensor) :
    (concat a b).channels = a.channels + b.channels := rfl

@[simp] theorem concat_height (a b : ActivationTensor) :
    (concat a b).height = a.height := rfl

@[simp] theorem concat_width (a b : ActivationTensor) :
    (concat a b).width = a.width := rfl

theorem rangeMap_getD (n : ℕ) (f : ℕ → ℝ) (o : ℕ) :
    ((List.range n).map f).getD o 0 = if o < n then f o else 0 := by
  by_cases ho : o < n
  · rw [if_pos ho, List.getD_eq_getElem _ _ (by simpa using ho)]
    simp
  · rw [if_neg ho, List.getD_eq_default _ _ (by simpa using ho)]

end TinyModel

open TinyModel

/-- Claim C1: for the model returned by `createTinyUNet` (channels
1→2→2→2→1, hiddenDim 4, embeddingDim 8, projections on the first four conv
layers and none on `outputConv`), `countParameters` returns exactly 309,
decomposing as MLP hidden 8 + MLP output 40 + four block projections
4×18 = 72 + inputConv 20 + encoderConv 38 + bottleneckConv 38 +
decoderConv 74 + outputConv 19. -/
theorem C1_countParameters_309 (d : UNetDraws) :
    countParameters (createTinyUNet d) = 309 ∧
    linearParamCount (createTinyUNet d).timeEmbedMLP.hiddenLayer = 8 ∧
    linearParamCount (createTinyUNet d).timeEmbedMLP.outputLayer = 40 ∧
    convProjectionParamCount (createTinyUNet d).inputConv = 18 ∧
    convProjectionParamCount (createTinyUNet d).encoderConv = 18 ∧
    convProjectionParamCount (createTinyUNet d).bottleneckConv = 18 ∧
    convProjectionParamCount (createTinyUNet d).decoderConv = 18 ∧
    convKernelBiasParamCount (createTinyUNet d).inputConv = 20 ∧
    convKernelBiasParamCount (createTinyUNet d).encoderConv = 38 ∧
    convKernelBiasParamCount (createTinyUNet d).bottleneckConv = 38 ∧
    convKernelBiasParamCount (createTinyUNet d).decoderConv = 74 ∧
    convLayerParamCount (createTinyUNet d).outputConv = 19 := by
  refine ⟨?_, ?_, ?_, ?_, ?_, ?_, ?_, ?_, ?_, ?_, ?_, ?_⟩ <;>
    simp [countParameters, createTinyUNet, createTimeEmbeddingMLP, createLinearLayer,
      createTinyConvLayer, createBlockProjection, linearParamCount, convLayerParamCount,
      convKernelBiasParamCount, convProjectionParamCount]

/-- Claim C5 counterexample: `computeCnoise` is not strictly increasing on
all of `(0, ∞)`: at `σ1 = 1e-7 < σ2 = 1e-6`, both positive, both arguments
clamp to `1e-6`, so the two values are equal rather than strictly ordered. -/
theorem C5_counterexample :
    (0 : ℝ) < 1e-7 ∧ (1e-7 : ℝ) < 1e-6 ∧
      ¬ computeCnoise 1e-7 < computeCnoise 1e-6 := by
  refine ⟨by norm_num, by norm_num, ?_⟩
  have h : computeCnoise 1e-7 = computeCnoise 1e-6 := by
    unfold computeCnoise
    have h1 : max (1e-7 : ℝ) 1e-6 = 1e-6 := max_eq_right (by norm_num)
    have h2 : max (1e-6 : ℝ) 1e-6 = 1e-6 := max_self _
    rw [h1, h2]
  rw [h]
  exact lt_irrefl _

/-- Claim C5 (amended): `computeCnoise σ = 0.25 · ln (max σ 1e-6)`;
it is strictly increasing once the smaller argument is at least the clamp
threshold (`1e-6 ≤ σ1 < σ2`), nondecreasing for all `σ1 ≤ σ2`, and
`computeCnoise 0 = computeCnoise 1e-6`; below the threshold the clamp makes
it constant, so strict monotonicity on all of `(0, ∞)` fails. -/
theorem C5_cnoise_spec (s1 s2 : ℝ) :
    computeCnoise s1 = 0.25 * Real.log (max s1 1e-6) ∧
    (1e-6 ≤ s1 → s1 < s2 → computeCnoise s1 < computeCnoise s2) ∧
    (s1 ≤ s2 → computeCnoise s1 ≤ computeCnoise s2) ∧
    computeCnoise 0 = computeCnoise 1e-6 := by
  have heps : (0 : ℝ) < 1e-6 := by norm_num
  refine ⟨rfl, ?_, ?_, ?_⟩
  · intro h1 h2
    unfold computeCnoise
    have hs1 : max s1 1e-6 = s1 := max_eq_left h1
    have hs2 : max s2 1e-6 = s2 := max_eq_left (le_of_lt (lt_of_le_of_lt h1 h2))
    rw [hs1, hs2]
    have hpos : (0 : ℝ) < s1 := lt_of_lt_of_le heps h1
    exact mul_lt_mul_of_pos_left (Real.log_lt_log hpos h2) (by norm_num)
  · intro hle
    unfold computeCnoise
    have hpos1 : (0 : ℝ) < max s1 1e-6 := lt_max_of_lt_right heps
    have hpos2 : (0 : ℝ) < max s2 1e-6 := lt_max_of_lt_right heps
    have hmax : max s1 1e-6 ≤ max s2 1e-6 := max_le_max hle le_rfl
    exact mul_le_mul_of_nonneg_left ((Real.log_le_log_iff hpos1 hpos2).mpr hmax)
      (by norm_num)
  · unfold computeCnoise
    have h1 : max (0 : ℝ) 1e-6 = 1e-6 := max_eq_right (by norm_num)
    have h2 : max (1e-6 : ℝ) 1e-6 = 1e-6 := max_self _
    rw [h1, h2]

/-- Claim C5 witness: the strict-monotonicity clause of `C5_cnoise_spec`
applied at `σ1 = 1, σ2 = 2`, and the clamp identity at `0`. -/
theorem C5_cnoise_spec_witness :
    (1e-6 : ℝ) ≤ 1 ∧ (1 : ℝ) < 2 ∧
      computeCnoise 1 < computeCnoise 2 ∧
      computeCnoise 0 = computeCnoise 1e-6 :=
  ⟨by norm_num, by norm_num,
    (C5_cnoise_spec 1 2).2.1 (by norm_num) (by norm_num),
    (C5_cnoise_spec 0 0).2.2.2⟩

/-- Claim C9: `forwardPass` is deterministic: two calls on equal model,
equal input tensor and equal sigma return equal `ForwardPassState` values
(the embedding is a pure function of its arguments; the source consumes no
randomness and reads no mutable state after model construction). -/
theorem C9_forwardPass_deterministic (m1 m2 : TinyUNet) (i1 i2 : ActivationTensor)
    (s1 s2 : ℝ) (hm : m1 = m2) (hi : i1 = i2) (hs : s1 = s2) :
    forwardPass m1 i1 s1 = forwardPass m2 i2 s2 := by
  subst hm; subst hi; subst hs; rfl

/-- Claim C9 witness: determinism applied at the zero-draw model, the
sample gradient input and `σ = 1`. -/
theorem C9_forwardPass_deterministic_witness :
    forwardPass (createTinyUNet zeroDraws) createSampleInput 1 =
      forwardPass (createTinyUNet zeroDraws) createSampleInput 1 :=
  C9_forwardPass_deterministic (createTinyUNet zeroDraws) (createTinyUNet zeroDraws)
    createSampleInput createSampleInput 1 1 rfl rfl rfl

/-- Claim C2: for every model of the reference configuration (any draws),
every input tensor of shape (1, 2, 2) and every sigma, the trace returned by
`forwardPass` has `output` of shape (1, 2, 2), `afterDownsample` and
`afterBottleneck` of shape (2, 1, 1), and `afterSkipConcat` of shape
(4, 2, 2). -/
theorem C2_forwardPass_shapes (d : UNetDraws) (input : ActivationTensor) (sigma : ℝ)
    (hc : input.channels = 1) (hh : input.height = 2) (hw : input.width = 2) :
    (forwardPass (createTinyUNet d) input sigma).output.channels = 1 ∧
    (forwardPass (createTinyUNet d) input sigma).output.height = 2 ∧
    (forwardPass (createTinyUNet d) input sigma).output.width = 2 ∧
    (forwardPass (createTinyUNet d) input sigma).afterDownsample.channels = 2 ∧
    (forwardPass (createTinyUNet d) input sigma).afterDownsample.height = 1 ∧
    (forwardPass (createTinyUNet d) input sigma).afterDownsample.width = 1 ∧
    (forwardPass (createTinyUNet d) input sigma).afterBottleneck.channels = 2 ∧
    (forwardPass (createTinyUNet d) input sigma).afterBottleneck.height = 1 ∧
    (forwardPass (createTinyUNet d) input sigma).afterBottleneck.width = 1 ∧
    (forwardPass (createTinyUNet d) input sigma).afterSkipConcat.channels = 4 ∧
    (forwardPass (createTinyUNet d) input sigma).afterSkipConcat.height = 2 ∧
    (forwardPass (createTinyUNet d) input sigma).afterSkipConcat.width = 2 := by
  refine ⟨?_, ?_, ?_, ?_, ?_, ?_, ?_, ?_, ?_, ?_, ?_, ?_⟩ <;>
    simp [forwardPass, createTinyUNet, createTinyConvLayer, createBlockProjection,
      createTimeEmbeddingMLP, conditionIfPresent, hc, hh, hw]

/-- Claim C2 witness: the shape theorem applied to the zero-draw model, the
sample gradient input (of shape (1, 2, 2)) and `σ = 1`. -/
theorem C2_forwardPass_shapes_witness :
    createSampleInput.channels = 1 ∧ createSampleInput.height = 2 ∧
    createSampleInput.width = 2 ∧
    (forwardPass (createTinyUNet zeroDraws) createSampleInput 1).output.channels = 1 ∧
    (forwardPass (createTinyUNet zeroDraws) createSampleInput 1).afterDownsample.channels = 2 ∧
    (forwardPass (createTinyUNet zeroDraws) createSampleInput 1).afterDownsample.height = 1 ∧
    (forwardPass (createTinyUNet zeroDraws) createSampleInput 1).afterSkipConcat.channels = 4 :=
  ⟨rfl, rfl, rfl,
    (C2_forwardPass_shapes zeroDraws createSampleInput 1 rfl rfl rfl).1,
    (C2_forwardPass_shapes zeroDraws createSampleInput 1 rfl rfl rfl).2.2.2.1,
    (C2_forwardPass_shapes zeroDraws createSampleInput 1 rfl rfl rfl).2.2.2.2.1,
    (C2_forwardPass_shapes zeroDraws createSampleInput 1 rfl rfl rfl).2.2.2.2.2.2.2.2.2.1⟩

theorem conv_summand_eq (t : ActivationTensor) (ic h w kh kw : ℕ) (K : ℝ) :
    (if 1 ≤ h + kh ∧ h + kh - 1 < t.height ∧ 1 ≤ w + kw ∧ w + kw - 1 < t.width then
        t.data ic (h + kh - 1) (w + kw - 1) * K
      else 0) =
      K * readPad t ic ((h : ℤ) + kh - 1) ((w : ℤ) + kw - 1) := by
  unfold readPad
  by_cases hc : 1 ≤ h + kh ∧ h + kh - 1 < t.height ∧ 1 ≤ w + kw ∧ w + kw - 1 < t.width
  · have e1 : ((h : ℤ) + kh - 1).toNat = h + kh - 1 := by omega
    have e2 : ((w : ℤ) + kw - 1).toNat = w + kw - 1 := by omega
    rw [if_pos hc, if_pos (by omega), e1, e2]
    ring
  · rw [if_neg hc, if_neg (by omega), mul_zero]

/-- Claim C3: for every layer and every input with matching channel count,
`applyConv2d` returns a tensor of the same height and width with
`layer.outChannels` channels, whose entry at in-bounds `(oc, h, w)` is
`bias[oc] + Σ_ic Σ_kh Σ_kw kernel[oc][ic][kh][kw] · input[ic][h+kh-1][w+kw-1]`
with zero padding outside `[0, height) × [0, width)` (the signed-index read
`readPad`). -/
theorem C3_conv2d_spec (input : ActivationTensor) (layer : TinyConvLayer)
    (hch : input.channels = layer.inChannels) :
    (applyConv2d input layer).channels = layer.outChannels ∧
    (applyConv2d input layer).height = input.height ∧
    (applyConv2d input layer).width = input.width ∧
    ∀ oc h w, oc < layer.outChannels → h < input.height → w < input.width →
      (applyConv2d input layer).data oc h w =
        layer.bias.getD oc 0 +
          ∑ ic ∈ Finset.range layer.inChannels,
            ∑ kh ∈ Finset.range 3, ∑ kw ∈ Finset.range 3,
              (layer.kernels oc ic).weights kh kw *
                readPad input ic ((h : ℤ) + kh - 1) ((w : ℤ) + kw - 1) := by
  refine ⟨rfl, rfl, rfl, ?_⟩
  intro oc h w hoc hh hw
  simp only [applyConv2d, mkTensor_data]
  rw [if_pos ⟨hoc, hh, hw⟩]
  congr 1
  refine Finset.sum_congr rfl fun ic _ => ?_
  refine Finset.sum_congr rfl fun kh _ => ?_
  refine Finset.sum_congr rfl fun kw _ => ?_
  exact conv_summand_eq input ic h w kh kw _

/-- Claim C3 witness: the convolution formula instantiated at the all-ones
1→1 test layer and the constant 1×1 input holding `2`, at position
`(0, 0, 0)`. -/
theorem C3_conv2d_spec_witness :
    convTestInput.channels = convTestLayer.inChannels ∧
    0 < convTestLayer.outChannels ∧ 0 < convTestInput.height ∧ 0 < convTestInput.width ∧
    (applyConv2d convTestInput convTestLayer).data 0 0 0 =
      convTestLayer.bias.getD 0 0 +
        ∑ ic ∈ Finset.range convTestLayer.inChannels,
          ∑ kh ∈ Finset.range 3, ∑ kw ∈ Finset.range 3,
            (convTestLayer.kernels 0 ic).weights kh kw *
              readPad convTestInput ic ((0 : ℤ) + kh - 1) ((0 : ℤ) + kw - 1) :=
  ⟨rfl, Nat.zero_lt_one, Nat.zero_lt_one, Nat.zero_lt_one,
    (C3_conv2d_spec convTestInput convTestLayer rfl).2.2.2 0 0 0
      Nat.zero_lt_one Nat.zero_lt_one Nat.zero_lt_one⟩

theorem replicate_getD_zero (n o : ℕ) : (List.replicate n (0 : ℝ)).getD o 0 = 0 := by
  by_cases h : o < n
  · rw [List.getD_eq_getElem _ _ (by simpa using h)]
    simp
  · rw [List.getD_eq_default _ _ (by simpa using h)]

theorem applyBlockProjection_getD_zero (emb : List ℝ) (p : BlockProjection)
    (hp : ProjectionZero p) (c : ℕ) : (applyBlockProjection emb p).getD c 0 = 0 := by
  unfold applyBlockProjection
  rw [rangeMap_getD]
  split
  · rw [hp.2 c]
    simp [hp.1]
  · rfl

theorem conv_zero (input : ActivationTensor) (layer : TinyConvLayer)
    (hk : ∀ oc ic kh kw, (layer.kernels oc ic).weights kh kw = 0)
    (hb : ∀ o, layer.bias.getD o 0 = 0) :
    TensorZero (applyConv2d input layer) := by
  intro c h w
  simp only [applyConv2d, mkTensor_data]
  split
  · rw [hb c]
    simp [hk]
  · rfl

theorem silu_zero (t : ActivationTensor) (ht : TensorZero t) :
    TensorZero (applySiLU t) := by
  intro c h w
  simp only [applySiLU, mkTensor_data]
  split
  · rw [ht c h w]
    simp
  · rfl

theorem cond_zero (t : ActivationTensor) (emb : List ℝ) (p : BlockProjection)
    (ht : TensorZero t) (hp : ProjectionZero p) :
    TensorZero (addBlockConditioning t emb p) := by
  intro c h w
  simp only [addBlockConditioning, mkTensor_data]
  split
  · rw [ht c h w, applyBlockProjection_getD_zero emb p hp c]
    simp
  · rfl

theorem conditionIfPresent_zero (t : ActivationTensor) (emb : List ℝ)
    (layer : TinyConvLayer) (ht : TensorZero t) (hz : ConvZero layer) :
    TensorZero (conditionIfPresent t emb layer) := by
  cases hp : layer.projection with
  | none => simpa [conditionIfPresent, hp] using ht
  | some p =>
    simp only [conditionIfPresent, hp]
    exact cond_zero t emb p ht (hz.2.2 p hp)

theorem downsample_zero (t : ActivationTensor) (ht : TensorZero t) :
    TensorZero (downsample2x t) := by
  intro c h w
  simp only [downsample2x, mkTensor_data]
  split
  · rw [ht, ht, ht, ht]
    norm_num
  · rfl

theorem upsample_zero (t : ActivationTensor) (ht : TensorZero t) :
    TensorZero (upsample2x t) := by
  intro c h w
  simp only [upsample2x, mkTensor_data]
  split
  · exact ht _ _ _
  · rfl

theorem concat_zero (a b : ActivationTensor) (ha : TensorZero a) (hb : TensorZero b) :
    TensorZero (concat a b) := by
  intro c h w
  simp only [concat, mkTensor_data]
  split
  · split
    · exact ha _ _ _
    · exact hb _ _ _
  · rfl

theorem fp_afterInputConv (m : TinyUNet) (i : ActivationTensor) (s : ℝ) :
    (forwardPass m i s).afterInputConv =
      conditionIfPresent (applySiLU (applyConv2d i m.inputConv))
        (runTimeEmbeddingMLP (computeCnoise s) m.timeEmbedMLP).2 m.inputConv := rfl

theorem fp_afterEncoder (m : TinyUNet) (i : ActivationTensor) (s : ℝ) :
    (forwardPass m i s).afterEncoder =
      conditionIfPresent
        (applySiLU (applyConv2d (forwardPass m i s).afterInputConv m.encoderConv))
        (runTimeEmbeddingMLP (computeCnoise s) m.timeEmbedMLP).2 m.encoderConv := rfl

theorem fp_afterDownsample (m : TinyUNet) (i : ActivationTensor) (s : ℝ) :
    (forwardPass m i s).afterDownsample =
      downsample2x (forwardPass m i s).afterEncoder := rfl

theorem fp_afterBottleneck (m : TinyUNet) (i : ActivationTensor) (s : ℝ) :
    (forwardPass m i s).afterBottleneck =
      conditionIfPresent
        (applySiLU (applyConv2d (forwardPass m i s).afterDownsample m.bottleneckConv))
        (runTimeEmbeddingMLP (computeCnoise s) m.timeEmbedMLP).2 m.bottleneckConv := rfl

theorem fp_afterUpsample (m : TinyUNet) (i : ActivationTensor) (s : ℝ) :
    (forwardPass m i s).afterUpsample =
      upsample2x (forwardPass m i s).afterBottleneck := rfl

theorem fp_afterSkipConcat (m : TinyUNet) (i : ActivationTensor) (s : ℝ) :
    (forwardPass m i s).afterSkipConcat =
      concat (forwardPass m i s).afterUpsample (forwardPass m i s).afterEncoder := rfl

theorem fp_afterDecoder (m : TinyUNet) (i : ActivationTensor) (s : ℝ) :
    (forwardPass m i s).afterDecoder =
      conditionIfPresent
        (applySiLU (applyConv2d (forwardPass m i s).afterSkipConcat m.decoderConv))
        (runTimeEmbeddingMLP (computeCnoise s) m.timeEmbedMLP).2 m.decoderConv := rfl

theorem fp_output (m : TinyUNet) (i : ActivationTensor) (s : ℝ) :
    (forwardPass m i s).output =
      applyConv2d (forwardPass m i s).afterDecoder m.outputConv := rfl

/-- Claim C4: if every kernel weight, bias, MLP weight and projection
weight of the model is `0`, then for every input of shape (1, 2, 2) and
every sigma, each of the eight recorded tensors of the trace is all-zero
(convolutions sum to the zero bias, `silu 0 = 0`, conditioning adds `0`). -/
theorem C4_zero_weight_collapse (m : TinyUNet) (input : ActivationTensor) (sigma : ℝ)
    (hz : ModelWeightsZero m) (hc : input.channels = 1) (hh : input.height = 2)
    (hw : input.width = 2) :
    TensorZero (forwardPass m input sigma).afterInputConv ∧
    TensorZero (forwardPass m input sigma).afterEncoder ∧
    TensorZero (forwardPass m input sigma).afterDownsample ∧
    TensorZero (forwardPass m input sigma).afterBottleneck ∧
    TensorZero (forwardPass m input sigma).afterUpsample ∧
    TensorZero (forwardPass m input sigma).afterSkipConcat ∧
    TensorZero (forwardPass m input sigma).afterDecoder ∧
    TensorZero (forwardPass m input sigma).output := by
  obtain ⟨hmlp1, hmlp2, hin, henc, hbot, hdec, hout⟩ := hz
  have z1 : TensorZero (forwardPass m input sigma).afterInputConv := by
    rw [fp_afterInputConv]
    exact conditionIfPresent_zero _ _ _ (silu_zero _ (conv_zero _ _ hin.1 hin.2.1)) hin
  have z2 : TensorZero (forwardPass m input sigma).afterEncoder := by
    rw [fp_afterEncoder]
    exact conditionIfPresent_zero _ _ _ (silu_zero _ (conv_zero _ _ henc.1 henc.2.1)) henc
  have z3 : TensorZero (forwardPass m input sigma).afterDownsample := by
    rw [fp_afterDownsample]
    exact downsample_zero _ z2
  have z4 : TensorZero (forwardPass m input sigma).afterBottleneck := by
    rw [fp_afterBottleneck]
    exact conditionIfPresent_zero _ _ _ (silu_zero _ (conv_zero _ _ hbot.1 hbot.2.1)) hbot
  have z5 : TensorZero (forwardPass m input sigma).afterUpsample := by
    rw [fp_afterUpsample]
    exact upsample_zero _ z4
  have z6 : TensorZero (forwardPass m input sigma).afterSkipConcat := by
    rw [fp_afterSkipConcat]
    exact concat_zero _ _ z5 z2
  have z7 : TensorZero (forwardPass m input sigma).afterDecoder := by
    rw [fp_afterDecoder]
    exact conditionIfPresent_zero _ _ _ (silu_zero _ (conv_zero _ _ hdec.1 hdec.2.1)) hdec
  have z8 : TensorZero (forwardPass m input sigma).output := by
    rw [fp_output]
    exact conv_zero _ _ hout.1 hout.2.1
  exact ⟨z1, z2, z3, z4, z5, z6, z7, z8⟩

theorem modelWeightsZero_zeroDraws : ModelWeightsZero (createTinyUNet zeroDraws) := by
  refine ⟨⟨fun o i => rfl, fun o => replicate_getD_zero _ _⟩,
    ⟨fun o i => rfl, fun o => replicate_getD_zero _ _⟩, ?_, ?_, ?_, ?_,
    ⟨fun _ _ _ _ => rfl, fun o => replicate_getD_zero _ _,
      fun p hp => Option.noConfusion hp⟩⟩ <;>
    exact ⟨fun _ _ _ _ => rfl, fun o => replicate_getD_zero _ _,
      fun p hp => by
        injection hp with h
        exact h ▸ ⟨fun o i => rfl, fun o => replicate_getD_zero _ _⟩⟩

/-- Claim C4 witness: the collapse theorem applied to the zero-draw model,
the sample gradient input and `σ = 1`; in particular the trace's `output`
entry at (0, 0, 0) is `0`. -/
theorem C4_zero_weight_collapse_witness :
    ModelWeightsZero (createTinyUNet zeroDraws) ∧
    TensorZero (forwardPass (createTinyUNet zeroDraws) createSampleInput 1).afterInputConv ∧
    TensorZero (forwardPass (createTinyUNet zeroDraws) createSampleInput 1).output :=
  ⟨modelWeightsZero_zeroDraws,
    (C4_zero_weight_collapse (createTinyUNet zeroDraws) createSampleInput 1
      modelWeightsZero_zeroDraws rfl rfl rfl).1,
    (C4_zero_weight_collapse (createTinyUNet zeroDraws) createSampleInput 1
      modelWeightsZero_zeroDraws rfl rfl rfl).2.2.2.2.2.2.2⟩

/-- Claim C6: for tensors with equal heights and widths (and the data-extent
invariant), `concat` has `a.channels + b.channels` channels with `a`'s
channels first in index order and `b`'s appended after (output channel
`a.channels + c` equals `b`'s channel `c`); and in `forwardPass` the skip
concat passes the upsampled tensor as `a` and the retained `afterEncoder`
tensor as `b`. -/
theorem C6_concat_spec (a b : ActivationTensor) (hwa : WellFormed a) (hwb : WellFormed b)
    (hh : a.height = b.height) (hw : a.width = b.width) :
    (concat a b).channels = a.channels + b.channels ∧
    (∀ c h w, c < a.channels → (concat a b).data c h w = a.data c h w) ∧
    (∀ c h w, c < b.channels → (concat a b).data (a.channels + c) h w = b.data c h w) ∧
    ∀ (m : TinyUNet) (i : ActivationTensor) (s : ℝ),
      (forwardPass m i s).afterSkipConcat =
        concat (forwardPass m i s).afterUpsample (forwardPass m i s).afterEncoder := by
  refine ⟨rfl, ?_, ?_, fun m i s => fp_afterSkipConcat m i s⟩
  · intro c h w hc
    simp only [concat, mkTensor_data]
    by_cases hin : h < a.height ∧ w < a.width
    · rw [if_pos ⟨by omega, hin.1, hin.2⟩, if_pos hc]
    · rw [if_neg (by tauto)]
      exact (hwa c h w (by omega)).symm
  · intro c h w hc
    simp only [concat, mkTensor_data]
    by_cases hin : h < a.height ∧ w < a.width
    · rw [if_pos ⟨by omega, hin.1, hin.2⟩, if_neg (by omega), Nat.add_sub_cancel_left]
    · rw [if_neg (by tauto)]
      exact (hwb c h w (by omega)).symm

/-- Claim C6 witness: concatenation of the 2-channel tensors with values
(1, 2) and (3, 4): four output channels in order, channel 0 from `a`,
channel `a.channels + 1` from `b`. -/
theorem C6_concat_spec_witness :
    concatLeft.height = concatRight.height ∧ concatLeft.width = concatRight.width ∧
    (concat concatLeft concatRight).channels = concatLeft.channels + concatRight.channels ∧
    (concat concatLeft concatRight).data 0 0 0 = concatLeft.data 0 0 0 ∧
    (concat concatLeft concatRight).data (concatLeft.channels + 1) 0 0 =
      concatRight.data 1 0 0 :=
  ⟨rfl, rfl,
    (C6_concat_spec concatLeft concatRight (wellFormed_mkTensor _ _ _ _)
      (wellFormed_mkTensor _ _ _ _) rfl rfl).1,
    (C6_concat_spec concatLeft concatRight (wellFormed_mkTensor _ _ _ _)
      (wellFormed_mkTensor _ _ _ _) rfl rfl).2.1 0 0 0 (by decide),
    (C6_concat_spec concatLeft concatRight (wellFormed_mkTensor _ _ _ _)
      (wellFormed_mkTensor _ _ _ _) rfl rfl).2.2.1 1 0 0 (by decide)⟩

/-- Claim C7 counterexample: the claim says the returned `hidden` equals
`silu(linear([cnoise], hiddenLayer))`, but the source returns the
PRE-activation vector: for the MLP with zero hidden weights and hidden bias
`1`, at `cnoise = 0` the returned hidden vector is `[1]` while the
SiLU-activated vector is `[1·sigmoid(1)] ≠ [1]`. -/
theorem C7_counterexample :
    (runTimeEmbeddingMLP 0 mlpCounter).1 ≠
      applySiLUArray (applyLinear [0] mlpCounter.hiddenLayer) := by
  intro hEq
  have hr : List.range 1 = [0] := rfl
  have h1 : (runTimeEmbeddingMLP 0 mlpCounter).1 = [(1 : ℝ)] := by
    simp [runTimeEmbeddingMLP, applyLinear, mlpCounter, hr]
  have h2 : applySiLUArray (applyLinear [(0 : ℝ)] mlpCounter.hiddenLayer) =
      [1 * (1 / (1 + Real.exp (-1)))] := by
    simp [applySiLUArray, applyLinear, mlpCounter, hr]
  rw [h1, h2] at hEq
  have h3 : (1 : ℝ) = 1 * (1 / (1 + Real.exp (-1))) := by
    simpa using hEq
  have hpos : (0 : ℝ) < 1 + Real.exp (-1) := by positivity
  rw [one_mul] at h3
  have h4 : (1 : ℝ) = 1 + Real.exp (-1) :=
    (div_eq_one_iff_eq (ne_of_gt hpos)).mp h3.symm
  linarith [Real.exp_pos (-1 : ℝ)]

/-- Claim C7 (amended): `runTimeEmbeddingMLP(cnoise, mlp)` returns
(hidden, embedding) where `hidden = linear([cnoise], mlp.hiddenLayer)` is
the PRE-activation vector (SiLU is NOT applied to the returned hidden
vector), `embedding = linear(silu(hidden), mlp.outputLayer)` with SiLU
applied only on the path to the output layer, `linear(x, layer)[o] =
bias[o] + Σ_i weights[o][i]·x[i]`, and these two vectors are the
`mlpHidden` and `sharedEmbedding` recorded in the `ForwardPassState`. -/
theorem C7_runTimeEmbeddingMLP_spec (cn : ℝ) (mlp : TimeEmbeddingMLP) :
    (runTimeEmbeddingMLP cn mlp).1 = applyLinear [cn] mlp.hiddenLayer ∧
    (runTimeEmbeddingMLP cn mlp).2 =
      applyLinear (applySiLUArray (applyLinear [cn] mlp.hiddenLayer)) mlp.outputLayer ∧
    (∀ (x : List ℝ) (layer : LinearLayer) (o : ℕ), o < layer.outputDim →
      (applyLinear x layer).getD o 0 =
        layer.bias.getD o 0 +
          ∑ i ∈ Finset.range layer.inputDim, layer.weights o i * x.getD i 0) ∧
    (applyLinear [cn] mlp.hiddenLayer).length = mlp.hiddenLayer.outputDim ∧
    ∀ (m : TinyUNet) (i : ActivationTensor) (s : ℝ),
      (forwardPass m i s).mlpHidden =
        (runTimeEmbeddingMLP (computeCnoise s) m.timeEmbedMLP).1 ∧
      (forwardPass m i s).sharedEmbedding =
        (runTimeEmbeddingMLP (computeCnoise s) m.timeEmbedMLP).2 := by
  refine ⟨rfl, rfl, ?_, ?_, fun m i s => ⟨rfl, rfl⟩⟩
  · intro x layer o ho
    unfold applyLinear
    rw [rangeMap_getD, if_pos ho]
  · simp [applyLinear]

/-- Claim C7 witness: the amended statement applied at `cnoise = 0` and the
concrete MLP `mlpCounter`, with the linear formula instantiated at output
index `0`. -/
theorem C7_runTimeEmbeddingMLP_spec_witness :
    (runTimeEmbeddingMLP 0 mlpCounter).1 = applyLinear [0] mlpCounter.hiddenLayer ∧
    0 < mlpCounter.hiddenLayer.outputDim ∧
    (applyLinear [0] mlpCounter.hiddenLayer).getD 0 0 =
      mlpCounter.hiddenLayer.bias.getD 0 0 +
        ∑ i ∈ Finset.range mlpCounter.hiddenLayer.inputDim,
          mlpCounter.hiddenLayer.weights 0 i * ([(0 : ℝ)] : List ℝ).getD i 0 :=
  ⟨(C7_runTimeEmbeddingMLP_spec 0 mlpCounter).1, Nat.zero_lt_one,
    (C7_runTimeEmbeddingMLP_spec 0 mlpCounter).2.2.1 [0] mlpCounter.hiddenLayer 0
      Nat.zero_lt_one⟩

/-- Claim C8 counterexample: handed the all-ones tensor with odd spatial
extents 3×3, the pooling operator does not fail fast with a descriptive
error: it silently returns a defined 1×1 tensor (flooring the extents,
dropping the last row and column), averaging the top-left 2×2 block to `1`. -/
theorem C8_counterexample :
    (downsample2x oddTensor).channels = 1 ∧
    (downsample2x oddTensor).height = 1 ∧
    (downsample2x oddTensor).width = 1 ∧
    (downsample2x oddTensor).data 0 0 0 = 1 := by
  refine ⟨rfl, rfl, rfl, ?_⟩
  simp [downsample2x, oddTensor, mkTensor]
  norm_num

/-- Claim C8 (amended): the reference operators perform no shape
validation and raise no error: `applyConv2d` reads only the first
`layer.inChannels` input channels, so a tensor whose channel count exceeds
the layer's expectation is processed with the extra channels silently
ignored (the output depends only on channels below `layer.inChannels`), and
`downsample2x` on odd height or width silently floors the output extents to
`⌊height/2⌋ × ⌊width/2⌋`, dropping the last row/column, instead of failing
fast. -/
theorem C8_no_shape_validation (input input2 : ActivationTensor) (layer : TinyConvLayer)
    (hdata : ∀ ic h w, ic < layer.inChannels → input.data ic h w = input2.data ic h w)
    (hh : input.height = input2.height) (hw : input.width = input2.width) :
    applyConv2d input layer = applyConv2d input2 layer ∧
    (downsample2x input).channels = input.channels ∧
    (downsample2x input).height = input.height / 2 ∧
    (downsample2x input).width = input.width / 2 := by
  refine ⟨?_, rfl, rfl, rfl⟩
  refine ActivationTensor.ext ?_ rfl hh hw
  funext c h w
  simp only [applyConv2d, mkTensor_data]
  rw [hh, hw]
  by_cases hcond : c < layer.outChannels ∧ h < input2.height ∧ w < input2.width
  · rw [if_pos hcond, if_pos hcond]
    congr 1
    refine Finset.sum_congr rfl fun ic hic => ?_
    refine Finset.sum_congr rfl fun kh _ => ?_
    refine Finset.sum_congr rfl fun kw _ => ?_
    by_cases hpad : 1 ≤ h + kh ∧ h + kh - 1 < input2.height ∧
        1 ≤ w + kw ∧ w + kw - 1 < input2.width
    · rw [if_pos hpad, if_pos hpad, hdata ic _ _ (Finset.mem_range.mp hic)]
    · rw [if_neg hpad, if_neg hpad]
  · rw [if_neg hcond, if_neg hcond]

/-- Claim C8 witness: the 2-channel tensor `extraChannelInput` fed to the
1-input-channel layer `convTestLayer` convolves identically to its
1-channel restriction (the extra channel is silently ignored), and pooling
reports floored extents. -/
theorem C8_no_shape_validation_witness :
    extraChannelInput.height = oneChannelInput.height ∧
    extraChannelInput.width = oneChannelInput.width ∧
    applyConv2d extraChannelInput convTestLayer =
      applyConv2d oneChannelInput convTestLayer ∧
    (downsample2x extraChannelInput).height = extraChannelInput.height / 2 :=
  ⟨rfl, rfl,
    (C8_no_shape_validation extraChannelInput oneChannelInput convTestLayer
      (fun ic h w hic => by
        have hic0 : ic = 0 := by
          have : convTestLayer.inChannels = 1 := rfl
          omega
        subst hic0
        simp [extraChannelInput, oneChannelInput, mkTensor]) rfl rfl).1,
    (C8_no_shape_validation extraChannelInput oneChannelInput convTestLayer
      (fun ic h w hic => by
        have hic0 : ic = 0 := by
          have : convTestLayer.inChannels = 1 := rfl
          omega
        subst hic0
        simp [extraChannelInput, oneChannelInput, mkTensor]) rfl rfl).2.2.1⟩

/-- Claim C10: downsampling inverts upsampling: for every tensor (with the
data-extent invariant), `downsample2x (upsample2x t) = t`, because each
disjoint 2×2 block of the upsampled tensor holds four copies of one source
value and averaging them returns that value. -/
theorem C10_down_up_inverse (t : ActivationTensor) (hwf : WellFormed t) :
    downsample2x (upsample2x t) = t := by
  refine ActivationTensor.ext ?_ rfl
    (by simp only [downsample2x_height, upsample2x_height]; omega)
    (by simp only [downsample2x_width, upsample2x_width]; omega)
  funext c h w
  simp only [downsample2x, upsample2x, mkTensor_data, mkTensor_channels,
    mkTensor_height, mkTensor_width]
  by_cases hin : c < t.channels ∧ h < t.height ∧ w < t.width
  · rw [if_pos ⟨hin.1, by omega, by omega⟩,
      if_pos ⟨hin.1, by omega, by omega⟩, if_pos ⟨hin.1, by omega, by omega⟩,
      if_pos ⟨hin.1, by omega, by omega⟩, if_pos ⟨hin.1, by omega, by omega⟩]
    have e1 : h * 2 / 2 = h := by omega
    have e2 : w * 2 / 2 = w := by omega
    have e3 : (h * 2 + 1) / 2 = h := by omega
    have e4 : (w * 2 + 1) / 2 = w := by omega
    rw [e1, e2, e3, e4]
    ring
  · rw [if_neg (by omega)]
    exact (hwf c h w (by omega)).symm

/-- Claim C10 witness: the round trip on the concrete 1×1×1 tensor holding
`5`. -/
theorem C10_down_up_inverse_witness :
    WellFormed (mkTensor 1 1 1 fun _ _ _ => 5) ∧
    downsample2x (upsample2x (mkTensor 1 1 1 fun _ _ _ => 5)) =
      mkTensor 1 1 1 fun _ _ _ => 5 :=
  ⟨wellFormed_mkTensor 1 1 1 _,
    C10_down_up_inverse (mkTensor 1 1 1 fun _ _ _ => 5) (wellFormed_mkTensor 1 1 1 _)⟩
